import Mathlib

/-!
Shallow embedding of the warthog crypto momentum screener backend
(`backend/app`), covering the parts of the code base that the verified
properties below are about:

* `metrics/calculator.py` — `cipher_b_signals`, `compute_atr`, the 1m
  rolling-series portion of `SymbolState.update`;
* `services/trade_plan.py` — `build_trade_plan`;
* `services/grader.py` — `_check_mtf_alignment`, `grade_alert`;
* `services/backtester.py` — `_simulate_one`;
* `services/analysis_backtester.py` — the forward-candle load with
  `HORIZON_15M_BARS`;
* `services/ohlc_store.py` — the `ohlc` table and `upsert_candle`,
  `get_after`;
* `services/aggregator.py` — the throttled emit and the subscriber
  queues.

Real-valued quantities are modelled as rationals (`ℚ`); machine floats
are idealised as exact arithmetic.  Fallible code is modelled with
`Option`.  I/O (sqlite, websockets, asyncio) is modelled by explicit
state passing on the relevant data.
-/

/-! ### Configuration constants (`config.py`, defaults) -/

/-- ATR stop multiplier `TRADEPLAN_ATR_MULT` (default `2.5`). -/
def TRADEPLAN_ATR_MULT : ℚ := 5 / 2

/-- Take-profit R multiples `TRADEPLAN_TP_R_MULTS` (default `(1.5, 2.5, 4.0)`). -/
def TRADEPLAN_TP_R_MULTS : ℚ × ℚ × ℚ := (3 / 2, 5 / 2, 4)

/-- ATR period `ATR_PERIOD` (default `14`). -/
def ATR_PERIOD : ℕ := 14

/-- Snapshot throttle `SNAPSHOT_INTERVAL_MS` (default `30000`). -/
def SNAPSHOT_INTERVAL_MS : ℤ := 30000

/-- Forward-simulation horizon `HORIZON_15M_BARS` from
`analysis_backtester.py` (one day of 15m candles). -/
def HORIZON_15M_BARS : ℕ := 96

/-! ### `metrics/calculator.py`: Cipher B signals -/

/-- Embedding of `cipher_b_signals`: given the latest and previous
WaveTrend values (each possibly missing) and the oversold/overbought
levels, return the `(buy, sell)` flags, or `(none, none)` when any
input is missing. -/
def cipher_b_signals (wt1 wt2 wt1_prev wt2_prev : Option ℚ)
    (os_level ob_level : ℚ) : Option Bool × Option Bool :=
  match wt1, wt2, wt1_prev, wt2_prev with
  | some w1, some w2, some w1p, some w2p =>
    let oversold := decide (w2 ≤ os_level)
    let overbought := decide (w2 ≥ ob_level)
    let prev_diff := w1p - w2p
    let curr_diff := w1 - w2
    let cross_up := decide (prev_diff < 0) && decide (curr_diff ≥ 0)
    let cross_down := decide (prev_diff > 0) && decide (curr_diff ≤ 0)
    (some (oversold && cross_up), some (overbought && cross_down))
  | _, _, _, _ => (none, none)

/-! ### `services/trade_plan.py`: trade-plan builder -/

/-- Embedding of the `TradePlan` dataclass (the `plan_json` metadata
dictionary is omitted: it only records the inputs and configuration). -/
structure TradePlan where
  side : String
  entry_type : String
  entry_price : ℚ
  stop_loss : ℚ
  tp1 : Option ℚ
  tp2 : Option ℚ
  tp3 : Option ℚ
  atr : Option ℚ
  atr_mult : ℚ
  swing_ref : Option ℚ
  risk_per_unit : Option ℚ
  rr_tp1 : Option ℚ
  rr_tp2 : Option ℚ
  rr_tp3 : Option ℚ
  deriving DecidableEq, Repr

/-- Minimum of a nonempty list of rationals (`min(candidates)`). -/
def listMin : List ℚ → Option ℚ
  | [] => none
  | x :: xs => some (xs.foldl min x)

/-- Maximum of a nonempty list of rationals (`max(candidates)`). -/
def listMax : List ℚ → Option ℚ
  | [] => none
  | x :: xs => some (xs.foldl max x)

/-- Embedding of `build_trade_plan`.  The `ValueError` raised on an
invalid side is modelled as `none`. -/
def build_trade_plan (side : String) (entry_price : ℚ)
    (atr swing_high_15m swing_low_15m : Option ℚ) : Option TradePlan :=
  if side ≠ "BUY" ∧ side ≠ "SELL" then none
  else
    let atr_mult := TRADEPLAN_ATR_MULT
    let tp_r1 := TRADEPLAN_TP_R_MULTS.1
    let tp_r2 := TRADEPLAN_TP_R_MULTS.2.1
    let tp_r3 := TRADEPLAN_TP_R_MULTS.2.2
    let atr_sl : Option ℚ := atr.map fun a =>
      if side = "BUY" then entry_price - atr_mult * a else entry_price + atr_mult * a
    let swing_ref := if side = "BUY" then swing_low_15m else swing_high_15m
    let stop :=
      if side = "BUY" then
        (listMin ([swing_low_15m, atr_sl].filterMap id)).getD (atr_sl.getD entry_price)
      else
        (listMax ([swing_high_15m, atr_sl].filterMap id)).getD (atr_sl.getD entry_price)
    let risk := |entry_price - stop|
    let tps : Option (ℚ × ℚ × ℚ) :=
      if risk = 0 then none
      else
        let sign : ℚ := if side = "BUY" then 1 else -1
        some (entry_price + sign * tp_r1 * risk,
              entry_price + sign * tp_r2 * risk,
              entry_price + sign * tp_r3 * risk)
    some
      { side := side
        entry_type := "market"
        entry_price := entry_price
        stop_loss := stop
        tp1 := tps.map (·.1)
        tp2 := tps.map (·.2.1)
        tp3 := tps.map (·.2.2)
        atr := atr
        atr_mult := atr_mult
        swing_ref := swing_ref
        risk_per_unit := some risk
        rr_tp1 := tps.map fun _ => tp_r1
        rr_tp2 := tps.map fun _ => tp_r2
        rr_tp3 := tps.map fun _ => tp_r3 }

/-! ### `services/grader.py`: MTF alignment check and alert grading -/

/-- Embedding of the metrics dictionary fields that `grade_alert` and
`_check_mtf_alignment` read.  Each optional field is `none` when the
key is absent or `None` in the dictionary.  `symbol_win_rate` models
the `_symbol_win_rates` cache lookup for the metric symbol (`none`
when the symbol is not in the cache).  `mtf_bull_count` and
`mtf_bear_count` model `metrics.get(key, 0) or 0`, which always
yields a number. -/
structure GraderMetrics where
  rsi_1h : Option ℚ
  rsi_4h : Option ℚ
  macd_histogram_1h : Option ℚ
  macd_histogram_4h : Option ℚ
  oi_change_5m : Option ℚ
  rvol_1m : Option ℚ
  momentum_score : Option ℚ
  vol_1m : Option ℚ
  rsi_14 : Option ℚ
  funding_rate : Option ℚ
  volatility_percentile : Option ℚ
  symbol_win_rate : Option ℚ
  mtf_bull_count : ℚ
  mtf_bear_count : ℚ
  bb_position : Option ℚ
  bb_width : Option ℚ
  atr : Option ℚ
  last_price : Option ℚ
  vwap_15m : Option ℚ
  deriving DecidableEq, Repr

/-- Embedding of `_check_mtf_alignment`: counts how many of the four
1h/4h RSI and MACD-histogram checks pass for the signal direction and
returns `(aligned_count ≥ 3, aligned_count)`.  The human-readable
`reasons` strings are omitted. -/
def check_mtf_alignment (m : GraderMetrics) (signal : String) : Bool × ℕ :=
  let c1 : ℕ :=
    match m.rsi_1h with
    | some r =>
      if signal = "BUY" then (if r < 70 then 1 else 0)
      else if signal = "SELL" then (if r > 30 then 1 else 0)
      else 0
    | none => 0
  let c2 : ℕ :=
    match m.rsi_4h with
    | some r =>
      if signal = "BUY" then (if r < 75 then 1 else 0)
      else if signal = "SELL" then (if r > 25 then 1 else 0)
      else 0
    | none => 0
  let c3 : ℕ :=
    match m.macd_histogram_1h with
    | some v =>
      if signal = "BUY" ∧ v > 0 then 1
      else if signal = "SELL" ∧ v < 0 then 1
      else 0
    | none => 0
  let c4 : ℕ :=
    match m.macd_histogram_4h with
    | some v =>
      if signal = "BUY" ∧ v > 0 then 1
      else if signal = "SELL" ∧ v < 0 then 1
      else 0
    | none => 0
  let aligned_count := c1 + c2 + c3 + c4
  (decide (3 ≤ aligned_count), aligned_count)

/-- Grade mapping at the end of `grade_alert` (strict MTF filter):
`A` when `score ≥ 6` and the multi-timeframe check is aligned, `B`
when `score ≥ 3`, `C` otherwise. -/
def gradeOf (score : ℚ) (mtf_aligned : Bool) : String :=
  if score ≥ 6 ∧ mtf_aligned then "A" else if score ≥ 3 then "B" else "C"

/-- Score accumulation of `grade_alert` (everything up to the final
grade mapping).  The `avoid`/`bonuses` string lists are omitted (they
never influence the score or the grade). -/
def grade_score (m : GraderMetrics) (signal : String) : ℚ :=
  -- Signal fired (+2)
  let score : ℚ := 2
  -- Open interest alignment
  let score := score +
    (match m.oi_change_5m with
     | some oi =>
       if signal = "BUY" then
         (if oi > 1/2 then 2 else if oi > 0 then 1 else if oi < -(1/2) then -2 else 0)
       else if signal = "SELL" then
         (if oi < -(1/2) then 2 else if oi < 0 then 1 else if oi > 1/2 then -2 else 0)
       else 0
     | none => 0)
  -- Relative volume
  let score := score +
    (match m.rvol_1m with
     | some rv =>
       if rv ≥ 2 then 2 else if rv ≥ 3/2 then 1
       else if rv < 1/2 then -2 else if rv < 4/5 then -1 else 0
     | none => 0)
  -- Momentum alignment
  let score := score +
    (match m.momentum_score with
     | some mom =>
       if signal = "BUY" then
         (if mom > 30 then 3/2 else if mom > 0 then 1/2 else if mom < -30 then -(3/2) else 0)
       else if signal = "SELL" then
         (if mom < -30 then 3/2 else if mom < 0 then 1/2 else if mom > 30 then -(3/2) else 0)
       else 0
     | none => 0)
  -- Liquidity / volume
  let score := score +
    (match m.vol_1m with
     | some v =>
       if v ≤ 0 then 0 else if v < 10000 then -1 else if v > 100000 then 1/2 else 0
     | none => 0)
  -- 15m RSI extreme alignment
  let score := score +
    (match m.rsi_14 with
     | some r =>
       if signal = "BUY" then
         (if r < 30 then 3/2 else if r > 75 then -(3/2) else 0)
       else if signal = "SELL" then
         (if r > 70 then 3/2 else if r < 25 then -(3/2) else 0)
       else 0
     | none => 0)
  -- Funding-rate sentiment
  let score := score +
    (match m.funding_rate with
     | some f =>
       if signal = "BUY" then
         (if f < -(1/2000) then 1 else if f > 1/1000 then -1 else 0)
       else if signal = "SELL" then
         (if f > 1/2000 then 1 else if f < -(1/1000) then -1 else 0)
       else 0
     | none => 0)
  -- Volatility context
  let score := score +
    (match m.volatility_percentile with
     | some vp => if vp > 90 then 0 else if vp < 20 then 1/2 else 0
     | none => 0)
  -- MTF confluence
  let mtf_aligned := (check_mtf_alignment m signal).1
  let score := score + (if mtf_aligned then 2 else 0)
  -- Historical symbol performance
  let score := score +
    (match m.symbol_win_rate with
     | some wr => if wr < 7/20 then -2 else if wr > 11/20 then 1 else 0
     | none => 0)
  -- MTF bull/bear count
  let score := score +
    (if signal = "BUY" ∧ m.mtf_bull_count ≥ 4 then 1
     else if signal = "SELL" ∧ m.mtf_bear_count ≥ 4 then 1
     else if signal = "BUY" ∧ m.mtf_bear_count ≥ 4 then -1
     else if signal = "SELL" ∧ m.mtf_bull_count ≥ 4 then -1
     else 0)
  -- Bollinger-band position
  let score := score +
    (match m.bb_position with
     | some p =>
       if signal = "BUY" then
         (if p < 3/20 then 3/2 else if p > 9/10 then -1 else 0)
       else if signal = "SELL" then
         (if p > 17/20 then 3/2 else if p < 1/10 then -1 else 0)
       else 0
     | none => 0)
  -- Bollinger-band squeeze
  let score := score +
    (match m.bb_width with
     | some w => if w < 3/100 then 1/2 else 0
     | none => 0)
  -- ATR-based risk filter
  let score := score +
    (match m.atr, m.last_price with
     | some a, some lp =>
       if lp > 0 then
         (let atr_pct := a / lp * 100
          if atr_pct > 8 then -1 else if atr_pct < 1 then 1/2 else 0)
       else 0
     | _, _ => 0)
  -- VWAP alignment
  let score := score +
    (match m.vwap_15m, m.last_price with
     | some vw, some lp =>
       let vwap_diff_pct := if vw > 0 then (lp - vw) / vw * 100 else 0
       if signal = "BUY" then (if vwap_diff_pct < -1 then 1/2 else 0)
       else if signal = "SELL" then (if vwap_diff_pct > 1 then 1/2 else 0)
       else 0
     | _, _ => 0)
  score

/-- Embedding of `grade_alert`: returns `(setup_score, setup_grade)`. -/
def grade_alert (m : GraderMetrics) (signal : String) : ℚ × String :=
  (grade_score m signal, gradeOf (grade_score m signal) (check_mtf_alignment m signal).1)

/-! ### `metrics/calculator.py`: ATR and the 1m part of `SymbolState` -/

/-- True range of a bar given its high, low and the previous close:
`max(h − l, |h − pc|, |l − pc|)`. -/
def trueRange (h l pc : ℚ) : ℚ := max (h - l) (max |h - pc| |l - pc|)

/-- Embedding of `compute_atr`: over the first `n = min(len(closes),
len(highs), len(lows))` entries, build the true ranges
`TR i = trueRange highs[i] lows[i] closes[i-1]` for `i = 1 .. n−1` and
return the arithmetic mean of the last `ATR_PERIOD` of them; `none`
when `n < ATR_PERIOD + 1`. -/
def compute_atr (highs lows closes : List ℚ) : Option ℚ :=
  let n := min (min closes.length highs.length) lows.length
  if n < ATR_PERIOD + 1 then none
  else
    let trs := (List.range (n - 1)).map fun i =>
      trueRange (highs.getD (i + 1) 0) (lows.getD (i + 1) 0) (closes.getD i 0)
    if trs.length < ATR_PERIOD then none
    else some ((trs.drop (trs.length - ATR_PERIOD)).sum / (ATR_PERIOD : ℚ))

/-- Embedding of a 1m kline as consumed by `SymbolState.update`. -/
structure Kline where
  open_time : ℤ
  close_time : ℤ
  op : ℚ
  high : ℚ
  low : ℚ
  close : ℚ
  volume : ℚ
  closed : Bool
  deriving DecidableEq, Repr

/-- Embedding of `RollingSeries`: a bounded deque that evicts its
oldest element when full. -/
structure RollingSeries where
  maxlen : ℕ
  values : List ℚ
  deriving DecidableEq, Repr

/-- Appending to a `RollingSeries` (a `deque(maxlen=·)` drops from the
left when the new length would exceed `maxlen`). -/
def RollingSeries.push (s : RollingSeries) (v : ℚ) : RollingSeries :=
  let vs := s.values ++ [v]
  { s with values := if s.maxlen < vs.length then vs.drop (vs.length - s.maxlen) else vs }

/-- Embedding of the 1m-series part of `SymbolState`: the five rolling
1m series, `last_price`, the cached `atr` and the bounded
`atr_history`.  The higher-timeframe resamplers, indicator caches and
database seeding of the Python class are I/O-backed and outside the
scope of the properties below. -/
structure SymbolState where
  close_1m : RollingSeries
  high_1m : RollingSeries
  low_1m : RollingSeries
  vol_1m : RollingSeries
  open_1m : RollingSeries
  last_price : Option ℚ
  atr : Option ℚ
  atr_history : List ℚ
  deriving DecidableEq, Repr

/-- Embedding of the 1m portion of `SymbolState.update`: append the
candle to the five 1m series, set `last_price` to the close, and once
at least `ATR_PERIOD + 1` closes exist recompute `atr` via
`compute_atr` and append it (when non-null) to `atr_history`, keeping
only the last 100 values.  The trailing `_resample_htf` call touches
only the higher-timeframe state, which is not modelled. -/
def SymbolState.update (st : SymbolState) (k : Kline) : SymbolState :=
  let close_1m := st.close_1m.push k.close
  let high_1m := st.high_1m.push k.high
  let low_1m := st.low_1m.push k.low
  let vol_1m := st.vol_1m.push k.volume
  let open_1m := st.open_1m.push k.op
  let base : SymbolState :=
    { close_1m := close_1m, high_1m := high_1m, low_1m := low_1m
      vol_1m := vol_1m, open_1m := open_1m, last_price := some k.close
      atr := st.atr, atr_history := st.atr_history }
  if ATR_PERIOD + 1 ≤ close_1m.values.length then
    let atr := compute_atr high_1m.values low_1m.values close_1m.values
    let atr_history :=
      match atr with
      | some a =>
        let h := st.atr_history ++ [a]
        if 100 < h.length then h.drop (h.length - 100) else h
      | none => st.atr_history
    { base with atr := atr, atr_history := atr_history }
  else base

/-! ### `services/ohlc_store.py`: the `ohlc` table -/

/-- Primary key of the `ohlc` table: `(exchange, symbol, interval,
open_time)`. -/
structure CandleKey where
  exchange : String
  symbol : String
  itv : String
  open_time : ℤ
  deriving DecidableEq, Repr

/-- Non-key columns of an `ohlc` row. -/
structure CandleVal where
  close_time : ℤ
  op : ℚ
  high : ℚ
  low : ℚ
  close : ℚ
  volume : ℚ
  deriving DecidableEq, Repr

/-- The `ohlc` table, modelled as the list of its rows. -/
abbrev OhlcTable := List (CandleKey × CandleVal)

/-- Primary-key invariant of the `ohlc` table: no two rows share a
key. -/
def OhlcTable.uniqueKeys (t : OhlcTable) : Prop :=
  List.Pairwise (fun r s => r.1 ≠ s.1) t

/-- Embedding of `upsert_candle` (`INSERT .. ON CONFLICT(key) DO
UPDATE SET` all non-key columns): if a row with the key exists it is
updated in place, otherwise the new row is appended. -/
def upsert_candle (t : OhlcTable) (k : CandleKey) (v : CandleVal) : OhlcTable :=
  if t.any (fun r => r.1 = k) then
    t.map fun r => if r.1 = k then (k, v) else r
  else
    t ++ [(k, v)]

/-! ### `services/backtester.py`: forward simulation of one plan -/

/-- A row returned by the candle store: `(open_time, close_time, open,
high, low, close, volume)`. -/
structure CandleRow where
  open_time : ℤ
  close_time : ℤ
  op : ℚ
  high : ℚ
  low : ℚ
  close : ℚ
  volume : ℚ
  deriving DecidableEq, Repr, Inhabited

/-- Embedding of `BacktestTradeResult` (the mutable `grade` field is
omitted; it is attached after simulation and never read by it). -/
structure BacktestTradeResult where
  resolved : String
  r : ℚ
  mae_r : ℚ
  mfe_r : ℚ
  bars : ℕ
  deriving DecidableEq, Repr

/-- First index `j` (and level) in the TP list satisfying the hit
predicate, mirroring the `for j, tp in enumerate(tp_levels)` loop. -/
def firstTpIdx (hit : ℚ → Bool) : List ℚ → Option ℕ
  | [] => none
  | tp :: rest => if hit tp then some 0 else (firstTpIdx hit rest).map (· + 1)

/-- The bar-by-bar loop body of `_simulate_one`, with the bar counter
and the running MAE/MFE as explicit accumulators. -/
def simulateGo (side : String) (entry stop risk : ℚ) (tp_levels : List ℚ) :
    List CandleRow → ℕ → ℚ → ℚ → BacktestTradeResult
  | [], i, mae, mfe => ⟨"NONE", 0, mae, mfe, i⟩
  | c :: rest, i, mae, mfe =>
    if side = "BUY" then
      let mae := max mae ((entry - c.low) / risk)
      let mfe := max mfe ((c.high - entry) / risk)
      if c.low ≤ stop then ⟨"SL", -1, mae, mfe, i + 1⟩
      else
        match firstTpIdx (fun tp => decide (c.high ≥ tp)) tp_levels with
        | some j => ⟨"TP" ++ toString (j + 1), ((j : ℚ) + 1), mae, mfe, i + 1⟩
        | none => simulateGo side entry stop risk tp_levels rest (i + 1) mae mfe
    else
      let mae := max mae ((c.high - entry) / risk)
      let mfe := max mfe ((entry - c.low) / risk)
      if c.high ≥ stop then ⟨"SL", -1, mae, mfe, i + 1⟩
      else
        match firstTpIdx (fun tp => decide (c.low ≤ tp)) tp_levels with
        | some j => ⟨"TP" ++ toString (j + 1), ((j : ℚ) + 1), mae, mfe, i + 1⟩
        | none => simulateGo side entry stop risk tp_levels rest (i + 1) mae mfe

/-- Embedding of `_simulate_one`.  The unused `best_tp` computation of
the Python function is dead code and dropped. -/
def simulate_one (side : String) (entry stop : ℚ) (tps : List (Option ℚ))
    (candles : List CandleRow) : BacktestTradeResult :=
  let risk := |entry - stop|
  if risk ≤ 0 then ⟨"NONE", 0, 0, 0, 0⟩
  else
    let tp_levels := tps.filterMap id
    simulateGo side entry stop risk tp_levels candles 0 0 0

/-! ### `services/ohlc_store.py` / `analysis_backtester.py`: forward load -/

/-- Embedding of `get_after` for one `(exchange, symbol, interval)`
slice of the store, given as its rows in ascending `open_time` order
(the order the SQL index yields): rows with `open_time ≥
start_open_time`, limited to `lim`. -/
def get_after (rows : List CandleRow) (start_open_time : ℤ) (lim : ℕ) : List CandleRow :=
  (rows.filter fun c => decide (start_open_time ≤ c.open_time)).take lim

/-- Embedding of the per-alert simulation step of
`run_analysis_backtest`: load up to `HORIZON_15M_BARS` forward 15m
candles at the alert timestamp and simulate; an empty forward list
yields the `NONE` result directly. -/
def analysis_simulate (rows : List CandleRow) (created_ts : ℤ) (sig : String)
    (entry stop : ℚ) (tp1 tp2 tp3 : Option ℚ) : BacktestTradeResult :=
  let forward := get_after rows created_ts HORIZON_15M_BARS
  if forward.isEmpty then ⟨"NONE", 0, 0, 0, 0⟩
  else simulate_one sig entry stop [tp1, tp2, tp3] forward

/-! ### `services/aggregator.py`: throttled emit and subscriber queues -/

/-- Capacity of each subscriber queue (`asyncio.Queue(maxsize=100)`). -/
def SUBSCRIBER_QUEUE_MAXSIZE : ℕ := 100

/-- The aggregator state relevant to emission: the last emit
timestamp, the throttle interval (initialised from
`SNAPSHOT_INTERVAL_MS`), and the payload queues of the subscribers
(front = oldest element). -/
structure AggregatorState where
  last_emit_ts : ℤ
  throttle_ms : ℤ
  subscribers : List (List String)
  deriving DecidableEq, Repr

/-- Initial aggregator state (`__init__`): `last_emit_ts` is the
current time, the throttle is `SNAPSHOT_INTERVAL_MS`, no
subscribers. -/
def AggregatorState.init (now_ms : ℤ) : AggregatorState :=
  { last_emit_ts := now_ms, throttle_ms := SNAPSHOT_INTERVAL_MS, subscribers := [] }

/-- Embedding of `subscribe`: append a fresh empty queue of capacity
`SUBSCRIBER_QUEUE_MAXSIZE`. -/
def AggregatorState.subscribe (st : AggregatorState) : AggregatorState :=
  { st with subscribers := st.subscribers ++ [[]] }

/-- The fan-out step of `_emit_snapshot` for one queue: when the queue
is full, the oldest element is removed (`get_nowait`) before the
payload is enqueued (`put_nowait`). -/
def queuePush (q : List String) (payload : String) : List String :=
  if SUBSCRIBER_QUEUE_MAXSIZE ≤ q.length then q.drop 1 ++ [payload] else q ++ [payload]

/-- Embedding of `_emit_snapshot`: stamp `last_emit_ts` with the
current time and fan the payload out to every subscriber queue with
drop-oldest semantics.  Snapshot building, persistence and the redis
publish are I/O and outside the model. -/
def AggregatorState.emit_snapshot (st : AggregatorState) (now_ms : ℤ)
    (payload : String) : AggregatorState :=
  { st with last_emit_ts := now_ms
            subscribers := st.subscribers.map fun q => queuePush q payload }

/-- Embedding of `emit_if_due`: emit iff `now − last_emit_ts` has
reached the throttle; the boolean records whether an emit happened. -/
def AggregatorState.emit_if_due (st : AggregatorState) (now_ms : ℤ)
    (payload : String) : AggregatorState × Bool :=
  if now_ms - st.last_emit_ts < st.throttle_ms then (st, false)
  else (st.emit_snapshot now_ms payload, true)

/-- Embedding of `heartbeat_emit`: unconditional emit. -/
def AggregatorState.heartbeat_emit (st : AggregatorState) (now_ms : ℤ)
    (payload : String) : AggregatorState × Bool :=
  (st.emit_snapshot now_ms payload, true)

/-! ### Verified properties -/

/-- C2: `cipher_b_signals` returns `buy = some true` iff `wt2 ≤ os_level`,
the previous WaveTrend difference is negative and the current one is
nonnegative; `sell = some true` iff `wt2 ≥ ob_level`, the previous
difference is positive and the current one is nonpositive; and it returns
`(none, none)` whenever any of the four WaveTrend inputs is missing. -/
theorem cipher_b_signals_spec (os_level ob_level : ℚ) :
    (∀ w1 w2 w1p w2p : ℚ,
      ((cipher_b_signals (some w1) (some w2) (some w1p) (some w2p) os_level ob_level).1 = some true ↔
        (w2 ≤ os_level ∧ w1p - w2p < 0 ∧ w1 - w2 ≥ 0)) ∧
      ((cipher_b_signals (some w1) (some w2) (some w1p) (some w2p) os_level ob_level).2 = some true ↔
        (w2 ≥ ob_level ∧ w1p - w2p > 0 ∧ w1 - w2 ≤ 0))) ∧
    (∀ w1 w2 w1p w2p : Option ℚ,
      cipher_b_signals none w2 w1p w2p os_level ob_level = (none, none) ∧
      cipher_b_signals w1 none w1p w2p os_level ob_level = (none, none) ∧
      cipher_b_signals w1 w2 none w2p os_level ob_level = (none, none) ∧
      cipher_b_signals w1 w2 w1p none os_level ob_level = (none, none)) := by
  constructor
  · intro w1 w2 w1p w2p
    constructor
    · simp [cipher_b_signals]
    · simp [cipher_b_signals]
  · intro w1 w2 w1p w2p
    refine ⟨?_, ?_, ?_, ?_⟩ <;>
      rcases w1 with _ | w1 <;> rcases w2 with _ | w2 <;>
      rcases w1p with _ | w1p <;> rcases w2p with _ | w2p <;> rfl

/-- C10: for all inputs and thresholds, `cipher_b_signals` never returns
both flags true: the buy side needs a negative previous difference and the
sell side a positive one. -/
theorem cipher_b_signals_exclusive (w1 w2 w1p w2p : Option ℚ) (os_level ob_level : ℚ) :
    ¬((cipher_b_signals w1 w2 w1p w2p os_level ob_level).1 = some true ∧
      (cipher_b_signals w1 w2 w1p w2p os_level ob_level).2 = some true) := by
  rcases w1 with _ | w1 <;> rcases w2 with _ | w2 <;>
    rcases w1p with _ | w1p <;> rcases w2p with _ | w2p <;>
    simp [cipher_b_signals]
  intro _ h2 _ _ h5
  linarith

/-- C8: `emit_if_due` emits iff `now − last_emit_ts` has reached the
throttle interval and leaves the state unchanged otherwise, so two
consecutive emits produced through `emit_if_due` are at least one throttle
interval apart; `heartbeat_emit` emits unconditionally. -/
theorem emit_if_due_spec (st : AggregatorState) (now_ms : ℤ) (payload : String) :
    ((st.emit_if_due now_ms payload).2 = true ↔ st.throttle_ms ≤ now_ms - st.last_emit_ts) ∧
    ((st.emit_if_due now_ms payload).2 = false → (st.emit_if_due now_ms payload).1 = st) ∧
    ((st.emit_if_due now_ms payload).2 = true →
      ∀ t2 payload2,
        (((st.emit_if_due now_ms payload).1).emit_if_due t2 payload2).2 = true →
        st.throttle_ms ≤ t2 - now_ms) ∧
    (st.heartbeat_emit now_ms payload).2 = true := by
  unfold AggregatorState.emit_if_due AggregatorState.heartbeat_emit AggregatorState.emit_snapshot
  refine ⟨?_, ?_, ?_, rfl⟩
  · split_ifs with h
    · simp; omega
    · simp; omega
  · split_ifs with h <;> simp
  · split_ifs with h
    · simp
    · intro _ t2 payload2
      split_ifs with h2
      · simp
      · simp at h2 ⊢
        omega

/-- C9: `subscribe` appends a fresh empty queue (capacity
`SUBSCRIBER_QUEUE_MAXSIZE = 100`); if every subscriber queue respects the
capacity then after an emit every queue still respects it, and the emitted
payload is present as the most recent element of every queue. -/
theorem subscriber_queue_spec (st : AggregatorState) (now_ms : ℤ) (payload : String)
    (hlen : ∀ q ∈ st.subscribers, q.length ≤ SUBSCRIBER_QUEUE_MAXSIZE) :
    st.subscribe.subscribers = st.subscribers ++ [[]] ∧
    (∀ q ∈ st.subscribe.subscribers, q.length ≤ SUBSCRIBER_QUEUE_MAXSIZE) ∧
    (∀ q ∈ (st.emit_snapshot now_ms payload).subscribers,
      q.length ≤ SUBSCRIBER_QUEUE_MAXSIZE ∧ payload ∈ q ∧ q.getLast? = some payload) := by
  refine ⟨rfl, ?_, ?_⟩
  · intro q hq
    unfold AggregatorState.subscribe at hq
    simp at hq
    rcases hq with hq | hq
    · exact hlen q hq
    · subst hq; simp
  · intro q hq
    unfold AggregatorState.emit_snapshot at hq
    simp at hq
    obtain ⟨q0, hq0, rfl⟩ := hq
    have h0 := hlen q0 hq0
    unfold queuePush
    split_ifs with h
    · refine ⟨?_, ?_, ?_⟩
      · simp only [SUBSCRIBER_QUEUE_MAXSIZE] at h h0 ⊢
        simp [List.length_drop]
        omega
      · simp
      · exact List.getLast?_concat _
    · refine ⟨?_, ?_, ?_⟩
      · simp only [SUBSCRIBER_QUEUE_MAXSIZE] at h h0 ⊢
        simp
        omega
      · simp
      · exact List.getLast?_concat _

/-- C4: `grade_alert` returns grade `A` iff `score ≥ 6` and the MTF
alignment check passes; grade `B` iff `score ≥ 3` and the A-condition
fails; grade `C` iff `score < 3`; in particular a score of `8` with MTF
alignment failing yields `B`, not `A`. -/
theorem grade_alert_spec (m : GraderMetrics) (signal : String) :
    ((grade_alert m signal).2 = "A" ↔
      6 ≤ (grade_alert m signal).1 ∧ (check_mtf_alignment m signal).1 = true) ∧
    ((grade_alert m signal).2 = "B" ↔
      3 ≤ (grade_alert m signal).1 ∧
      ¬(6 ≤ (grade_alert m signal).1 ∧ (check_mtf_alignment m signal).1 = true)) ∧
    ((grade_alert m signal).2 = "C" ↔ (grade_alert m signal).1 < 3) ∧
    ((grade_alert m signal).1 = 8 → (check_mtf_alignment m signal).1 = false →
      (grade_alert m signal).2 = "B") := by
  have hfst : (grade_alert m signal).1 = grade_score m signal := rfl
  have hsnd : (grade_alert m signal).2 =
      gradeOf (grade_score m signal) (check_mtf_alignment m signal).1 := rfl
  rw [hfst, hsnd]
  generalize (check_mtf_alignment m signal).1 = b
  generalize grade_score m signal = s
  unfold gradeOf
  split_ifs with hA hB
  · obtain ⟨h6, hbt⟩ := hA
    refine ⟨by simp [h6, hbt], ?_, ?_, ?_⟩
    · constructor
      · intro h; exact absurd h (by decide)
      · rintro ⟨h3, hn⟩; exact absurd ⟨h6, hbt⟩ hn
    · constructor
      · intro h; exact absurd h (by decide)
      · intro h; linarith
    · intro h8 hbf; rw [hbt] at hbf; cases hbf
  · refine ⟨?_, ?_, ?_, ?_⟩
    · constructor
      · intro h; exact absurd h (by decide)
      · rintro ⟨h6, hbt⟩; exact absurd ⟨h6, hbt⟩ hA
    · exact iff_of_true rfl ⟨hB, hA⟩
    · constructor
      · intro h; exact absurd h (by decide)
      · intro h; linarith
    · intro _ _; rfl
  · refine ⟨?_, ?_, ?_, ?_⟩
    · constructor
      · intro h; exact absurd h (by decide)
      · rintro ⟨h6, _⟩; exact (hB (by linarith)).elim
    · constructor
      · intro h; exact absurd h (by decide)
      · rintro ⟨h3, _⟩; exact (hB h3).elim
    · exact iff_of_true rfl (lt_of_not_le hB)
    · intro h8 _
      exfalso
      rw [h8] at hB
      exact hB (by norm_num)

lemma upsert_key_present (t : OhlcTable) (k : CandleKey) (v : CandleVal) :
    (upsert_candle t k v).any (fun r => decide (r.1 = k)) = true := by
  unfold upsert_candle
  split_ifs with h
  · rw [List.any_eq_true] at h ⊢
    obtain ⟨r, hr, hk⟩ := h
    simp only [decide_eq_true_eq] at hk
    refine ⟨(k, v), ?_, by simp⟩
    rw [List.mem_map]
    exact ⟨r, hr, by simp [hk]⟩
  · rw [List.any_eq_true]
    exact ⟨(k, v), by simp, by simp⟩

lemma upsert_key_eq (t : OhlcTable) (k : CandleKey) (v : CandleVal) :
    ∀ r ∈ upsert_candle t k v, r.1 = k → r = (k, v) := by
  intro r hr hrk
  unfold upsert_candle at hr
  split_ifs at hr with h
  · rw [List.mem_map] at hr
    obtain ⟨r0, hr0, hfr⟩ := hr
    by_cases hk : r0.1 = k
    · simpa [hk] using hfr.symm
    · rw [if_neg hk] at hfr
      subst hfr
      exact absurd hrk hk
  · rw [List.mem_append] at hr
    rcases hr with hr | hr
    · rw [List.any_eq_true] at h
      push_neg at h
      have := h r hr
      simp only [decide_eq_true_eq] at this
      exact absurd hrk (by simpa using this)
    · simpa using hr

lemma upsert_idem (t : OhlcTable) (k : CandleKey) (v : CandleVal) :
    upsert_candle (upsert_candle t k v) k v = upsert_candle t k v := by
  have hmem := upsert_key_present t k v
  conv_lhs => rw [upsert_candle]
  rw [if_pos hmem]
  have : ∀ r ∈ upsert_candle t k v, (if r.1 = k then ((k, v) : CandleKey × CandleVal) else r) = r := by
    intro r hr
    by_cases hk : r.1 = k
    · rw [if_pos hk, (upsert_key_eq t k v r hr hk)]
    · rw [if_neg hk]
  calc (upsert_candle t k v).map (fun r => if r.1 = k then (k, v) else r)
      = (upsert_candle t k v).map id := List.map_congr_left this
    _ = upsert_candle t k v := List.map_id _

lemma upsert_unique (t : OhlcTable) (k : CandleKey) (v : CandleVal)
    (hu : t.uniqueKeys) : (upsert_candle t k v).uniqueKeys := by
  unfold upsert_candle OhlcTable.uniqueKeys
  split_ifs with h
  · rw [List.pairwise_map]
    refine hu.imp_of_mem ?_
    intro r s _ _ hne
    by_cases hrk : r.1 = k <;> by_cases hsk : s.1 = k <;> simp [hrk, hsk] at hne ⊢ <;> simp_all
  · rw [List.pairwise_append]
    refine ⟨hu, List.pairwise_singleton _ _, ?_⟩
    intro r hr s hs
    rw [List.any_eq_true] at h
    push_neg at h
    have := h r hr
    simp only [decide_eq_true_eq] at this
    simp only [List.mem_singleton] at hs
    subst hs
    simpa using this

lemma filter_key_map_replace (k : CandleKey) (v : CandleVal) :
    ∀ (t : OhlcTable), t.uniqueKeys → t.any (fun r => decide (r.1 = k)) = true →
    (t.map (fun r => if r.1 = k then (k, v) else r)).filter (fun r => decide (r.1 = k)) = [(k, v)] := by
  intro t
  induction t with
  | nil => intro _ h; simp at h
  | cons r rs ih =>
    intro hu hany
    rw [OhlcTable.uniqueKeys, List.pairwise_cons] at hu
    obtain ⟨hr, hrs⟩ := hu
    have hrs : OhlcTable.uniqueKeys rs := hrs
    by_cases hk : r.1 = k
    · simp only [List.map_cons, if_pos hk, List.filter_cons, decide_eq_true_eq]
      rw [if_pos (by simp)]
      have hrest : (rs.map (fun r => if r.1 = k then (k, v) else r)).filter
          (fun r => decide (r.1 = k)) = [] := by
        rw [List.filter_eq_nil_iff]
        intro s hs
        rw [List.mem_map] at hs
        obtain ⟨s0, hs0, hfs⟩ := hs
        have hs0k : s0.1 ≠ k := fun hc => (hr s0 hs0) (hk.trans hc.symm)
        rw [if_neg hs0k] at hfs
        subst hfs
        simp [hs0k]
      rw [hrest]
    · simp only [List.map_cons, if_neg hk, List.filter_cons]
      rw [if_neg (by simp [hk])]
      apply ih hrs
      rw [List.any_cons] at hany
      simpa [hk] using hany

lemma upsert_filter (t : OhlcTable) (k : CandleKey) (v : CandleVal)
    (hu : t.uniqueKeys) :
    (upsert_candle t k v).filter (fun r => decide (r.1 = k)) = [(k, v)] := by
  unfold upsert_candle
  split_ifs with h
  · exact filter_key_map_replace k v t hu h
  · rw [List.filter_append]
    have hnil : t.filter (fun r => decide (r.1 = k)) = [] := by
      rw [List.filter_eq_nil_iff]
      intro s hs
      rw [List.any_eq_true] at h
      push_neg at h
      have := h s hs
      simpa using this
    rw [hnil]
    simp

/-- C5: `upsert_candle` is idempotent on its unique key, and under the
primary-key invariant, upserting `v` then `v2` at the same key leaves
exactly one row for that key, carrying `v2` (last writer wins), with the
invariant preserved. -/
theorem upsert_candle_spec (t : OhlcTable) (k : CandleKey) (v v2 : CandleVal) :
    upsert_candle (upsert_candle t k v) k v = upsert_candle t k v ∧
    (t.uniqueKeys →
      (upsert_candle t k v).uniqueKeys ∧
      (upsert_candle (upsert_candle t k v) k v2).filter (fun r => decide (r.1 = k)) = [(k, v2)]) := by
  refine ⟨upsert_idem t k v, fun hu => ⟨upsert_unique t k v hu, ?_⟩⟩
  exact upsert_filter _ k v2 (upsert_unique t k v hu)

/-- C1 counterexample: with `entry_price = 100`, no ATR and
`swing_low_15m = 110` (a swing low above the entry), the BUY plan has
`stop_loss = 110 > entry_price`, refuting the unconditional invariant
`stop_loss ≤ entry_price`. -/
theorem build_trade_plan_stop_above_entry :
    ∃ plan, build_trade_plan "BUY" 100 none none (some 110) = some plan ∧
      ¬ plan.stop_loss ≤ plan.entry_price := by
  refine ⟨_, rfl, ?_⟩
  decide

lemma le_add_mul_abs (e c x : ℚ) (hc : 0 ≤ c) : e ≤ e + c * |x| :=
  le_add_of_nonneg_right (mul_nonneg hc (abs_nonneg x))

lemma add_mul_abs_mono (e c d x : ℚ) (h : c ≤ d) : e + c * |x| ≤ e + d * |x| := by
  have := abs_nonneg x
  nlinarith

lemma add_neg_mul_abs_le (e c x : ℚ) (hc : 0 ≤ c) : e + -(c * |x|) ≤ e := by
  have := abs_nonneg x
  nlinarith

lemma add_neg_mul_abs_mono (e c d x : ℚ) (h : c ≤ d) : e + -(d * |x|) ≤ e + -(c * |x|) := by
  have := abs_nonneg x
  nlinarith

set_option maxHeartbeats 1600000 in
/-- C1 (amended): every plan returned by `build_trade_plan` (either side,
any inputs) satisfies `risk_per_unit = |entry_price − stop_loss|`
unconditionally; and when the ATR (if present) is nonnegative and the
swing reference does not cross the entry (`swing_low_15m ≤ entry_price`
for BUY, `swing_high_15m ≥ entry_price` for SELL), the plan also
satisfies `stop_loss ≤ entry_price ≤ tp1 ≤ tp2 ≤ tp3` (mirrored for
SELL) whenever the take profits are non-null. -/
theorem build_trade_plan_invariants (entry : ℚ) (atr sh sl : Option ℚ) :
    (∀ side plan, build_trade_plan side entry atr sh sl = some plan →
      plan.risk_per_unit = some |plan.entry_price - plan.stop_loss|) ∧
    (∀ plan, build_trade_plan "BUY" entry atr sh sl = some plan →
      (∀ a ∈ atr, 0 ≤ a) → (∀ s ∈ sl, s ≤ entry) →
      plan.stop_loss ≤ plan.entry_price ∧
      (∀ t1 ∈ plan.tp1, plan.entry_price ≤ t1) ∧
      (∀ t1 ∈ plan.tp1, ∀ t2 ∈ plan.tp2, t1 ≤ t2) ∧
      (∀ t2 ∈ plan.tp2, ∀ t3 ∈ plan.tp3, t2 ≤ t3) ∧
      plan.risk_per_unit = some |plan.entry_price - plan.stop_loss|) ∧
    (∀ plan, build_trade_plan "SELL" entry atr sh sl = some plan →
      (∀ a ∈ atr, 0 ≤ a) → (∀ s ∈ sh, entry ≤ s) →
      plan.entry_price ≤ plan.stop_loss ∧
      (∀ t1 ∈ plan.tp1, t1 ≤ plan.entry_price) ∧
      (∀ t1 ∈ plan.tp1, ∀ t2 ∈ plan.tp2, t2 ≤ t1) ∧
      (∀ t2 ∈ plan.tp2, ∀ t3 ∈ plan.tp3, t3 ≤ t2) ∧
      plan.risk_per_unit = some |plan.entry_price - plan.stop_loss|) := by
  refine ⟨?_, ?_, ?_⟩
  · intro side plan hplan
    simp only [build_trade_plan] at hplan
    by_cases hside : side ≠ "BUY" ∧ side ≠ "SELL"
    · rw [if_pos hside] at hplan
      exact absurd hplan (by simp)
    · rw [if_neg hside, Option.some.injEq] at hplan
      subst hplan
      rfl
  · intro plan hplan hatr hsl
    rcases atr with _ | a
    · rcases sl with _ | s
      · simp [build_trade_plan, listMin, listMax] at hplan
        obtain rfl := hplan.symm
        refine ⟨le_rfl, by simp, by simp, by simp, by simp⟩
      · simp [build_trade_plan, listMin, listMax,
          TRADEPLAN_ATR_MULT, TRADEPLAN_TP_R_MULTS] at hplan
        norm_num at hplan
        obtain rfl := hplan.symm
        have hse : s ≤ entry := hsl s rfl
        refine ⟨by simpa using hse, ?_, ?_, ?_, by simp⟩
        · intro t1 ht1
          split_ifs at ht1 with h0
          · simp at ht1
          · simp only [Option.map_some', Option.mem_def, Option.some.injEq] at ht1
            subst ht1
            exact le_add_mul_abs _ _ _ (by norm_num)
        · intro t1 ht1 t2 ht2
          split_ifs at ht1 ht2 with h0
          · simp at ht1
          · simp only [Option.map_some', Option.mem_def, Option.some.injEq] at ht1 ht2
            subst ht1; subst ht2
            exact add_mul_abs_mono _ _ _ _ (by norm_num)
        · intro t2 ht2 t3 ht3
          split_ifs at ht2 ht3 with h0
          · simp at ht2
          · simp only [Option.map_some', Option.mem_def, Option.some.injEq] at ht2 ht3
            subst ht2; subst ht3
            exact add_mul_abs_mono _ _ _ _ (by norm_num)
    · have ha : (0 : ℚ) ≤ a := hatr a rfl
      rcases sl with _ | s
      · simp [build_trade_plan, listMin, listMax,
          TRADEPLAN_ATR_MULT, TRADEPLAN_TP_R_MULTS] at hplan
        norm_num at hplan
        obtain rfl := hplan.symm
        refine ⟨by simp; linarith, ?_, ?_, ?_, by simp⟩
        · intro t1 ht1
          split_ifs at ht1 with h0
          · simp at ht1
          · simp only [Option.map_some', Option.mem_def, Option.some.injEq] at ht1
            subst ht1
            exact le_add_mul_abs _ _ _ (by norm_num)
        · intro t1 ht1 t2 ht2
          split_ifs at ht1 ht2 with h0
          · simp at ht1
          · simp only [Option.map_some', Option.mem_def, Option.some.injEq] at ht1 ht2
            subst ht1; subst ht2
            exact add_mul_abs_mono _ _ _ _ (by norm_num)
        · intro t2 ht2 t3 ht3
          split_ifs at ht2 ht3 with h0
          · simp at ht2
          · simp only [Option.map_some', Option.mem_def, Option.some.injEq] at ht2 ht3
            subst ht2; subst ht3
            exact add_mul_abs_mono _ _ _ _ (by norm_num)
      · simp [build_trade_plan, listMin, listMax,
          TRADEPLAN_ATR_MULT, TRADEPLAN_TP_R_MULTS] at hplan
        norm_num at hplan
        obtain rfl := hplan.symm
        have hse : s ≤ entry := hsl s rfl
        have hstop : min s (entry - 5/2 * a) ≤ entry := by
          have := min_le_left s (entry - 5/2 * a)
          linarith
        refine ⟨by simpa using hstop, ?_, ?_, ?_, by simp⟩
        · intro t1 ht1
          split_ifs at ht1 with h0
          · simp at ht1
          · simp only [Option.map_some', Option.mem_def, Option.some.injEq] at ht1
            subst ht1
            exact le_add_mul_abs _ _ _ (by norm_num)
        · intro t1 ht1 t2 ht2
          split_ifs at ht1 ht2 with h0
          · simp at ht1
          · simp only [Option.map_some', Option.mem_def, Option.some.injEq] at ht1 ht2
            subst ht1; subst ht2
            exact add_mul_abs_mono _ _ _ _ (by norm_num)
        · intro t2 ht2 t3 ht3
          split_ifs at ht2 ht3 with h0
          · simp at ht2
          · simp only [Option.map_some', Option.mem_def, Option.some.injEq] at ht2 ht3
            subst ht2; subst ht3
            exact add_mul_abs_mono _ _ _ _ (by norm_num)
  · intro plan hplan hatr hsh
    rcases atr with _ | a
    · rcases sh with _ | s
      · simp [build_trade_plan, listMin, listMax,
          if_neg (by decide : ¬ ("SELL" : String) = "BUY")] at hplan
        obtain rfl := hplan.symm
        refine ⟨le_rfl, by simp, by simp, by simp, by simp⟩
      · simp [build_trade_plan, listMin, listMax,
          if_neg (by decide : ¬ ("SELL" : String) = "BUY"),
          TRADEPLAN_ATR_MULT, TRADEPLAN_TP_R_MULTS] at hplan
        norm_num at hplan
        obtain rfl := hplan.symm
        have hse : entry ≤ s := hsh s rfl
        refine ⟨by simpa using hse, ?_, ?_, ?_, by simp⟩
        · intro t1 ht1
          split_ifs at ht1 with h0
          · simp at ht1
          · simp only [Option.map_some', Option.mem_def, Option.some.injEq] at ht1
            subst ht1
            exact add_neg_mul_abs_le _ _ _ (by norm_num)
        · intro t1 ht1 t2 ht2
          split_ifs at ht1 ht2 with h0
          · simp at ht1
          · simp only [Option.map_some', Option.mem_def, Option.some.injEq] at ht1 ht2
            subst ht1; subst ht2
            exact add_neg_mul_abs_mono _ _ _ _ (by norm_num)
        · intro t2 ht2 t3 ht3
          split_ifs at ht2 ht3 with h0
          · simp at ht2
          · simp only [Option.map_some', Option.mem_def, Option.some.injEq] at ht2 ht3
            subst ht2; subst ht3
            exact add_neg_mul_abs_mono _ _ _ _ (by norm_num)
    · have ha : (0 : ℚ) ≤ a := hatr a rfl
      rcases sh with _ | s
      · simp [build_trade_plan, listMin, listMax,
          if_neg (by decide : ¬ ("SELL" : String) = "BUY"),
          TRADEPLAN_ATR_MULT, TRADEPLAN_TP_R_MULTS] at hplan
        norm_num at hplan
        obtain rfl := hplan.symm
        refine ⟨by simp; linarith, ?_, ?_, ?_, by simp⟩
        · intro t1 ht1
          split_ifs at ht1 with h0
          · simp at ht1
          · simp only [Option.map_some', Option.mem_def, Option.some.injEq] at ht1
            subst ht1
            exact add_neg_mul_abs_le _ _ _ (by norm_num)
        · intro t1 ht1 t2 ht2
          split_ifs at ht1 ht2 with h0
          · simp at ht1
          · simp only [Option.map_some', Option.mem_def, Option.some.injEq] at ht1 ht2
            subst ht1; subst ht2
            exact add_neg_mul_abs_mono _ _ _ _ (by norm_num)
        · intro t2 ht2 t3 ht3
          split_ifs at ht2 ht3 with h0
          · simp at ht2
          · simp only [Option.map_some', Option.mem_def, Option.some.injEq] at ht2 ht3
            subst ht2; subst ht3
            exact add_neg_mul_abs_mono _ _ _ _ (by norm_num)
      · simp [build_trade_plan, listMin, listMax,
          if_neg (by decide : ¬ ("SELL" : String) = "BUY"),
          TRADEPLAN_ATR_MULT, TRADEPLAN_TP_R_MULTS] at hplan
        norm_num at hplan
        obtain rfl := hplan.symm
        have hse : entry ≤ s := hsh s rfl
        have hstop : entry ≤ max s (entry + 5/2 * a) := by
          have := le_max_left s (entry + 5/2 * a)
          linarith
        refine ⟨by simpa using hstop, ?_, ?_, ?_, by simp⟩
        · intro t1 ht1
          split_ifs at ht1 with h0
          · simp at ht1
          · simp only [Option.map_some', Option.mem_def, Option.some.injEq] at ht1
            subst ht1
            exact add_neg_mul_abs_le _ _ _ (by norm_num)
        · intro t1 ht1 t2 ht2
          split_ifs at ht1 ht2 with h0
          · simp at ht1
          · simp only [Option.map_some', Option.mem_def, Option.some.injEq] at ht1 ht2
            subst ht1; subst ht2
            exact add_neg_mul_abs_mono _ _ _ _ (by norm_num)
        · intro t2 ht2 t3 ht3
          split_ifs at ht2 ht3 with h0
          · simp at ht2
          · simp only [Option.map_some', Option.mem_def, Option.some.injEq] at ht2 ht3
            subst ht2; subst ht3
            exact add_neg_mul_abs_mono _ _ _ _ (by norm_num)

lemma drop_map_range (f : ℕ → ℚ) (k b : ℕ) :
    ((List.range (k + b)).map f).drop k = (List.range b).map fun j => f (k + j) := by
  rw [List.range_add, List.map_append, List.map_map]
  rw [List.drop_left' (by simp)]
  rfl

lemma atr_window (f g : ℕ → ℚ) (m : ℕ) (hm : 14 ≤ m)
    (hfg : ∀ j, j < 14 → f (m - 14 + j) = g j) :
    (((List.range m).map f).drop (m - 14)).sum = ((List.range 14).map g).sum := by
  obtain ⟨k, rfl⟩ : ∃ k, m = k + 14 := ⟨m - 14, by omega⟩
  have hk : k + 14 - 14 = k := by omega
  rw [hk, drop_map_range]
  congr 1
  apply List.map_congr_left
  intro j hj
  rw [List.mem_range] at hj
  have := hfg j hj
  rwa [hk] at this

/-- C7: when the high/low/close series all hold at least
`ATR_PERIOD + 1 = 15` elements, `compute_atr` is the arithmetic mean of
the last 14 true ranges `TR_i = max(h_i − l_i, |h_i − c_{i−1}|,
|l_i − c_{i−1}|)`; with fewer elements it is `none`; and
`SymbolState.update` recomputes `atr` from the updated 1m series whenever
at least 15 closes exist after the append. -/
theorem compute_atr_correct :
    (∀ highs lows closes : List ℚ, ∀ n,
      n = min (min closes.length highs.length) lows.length →
      ATR_PERIOD + 1 ≤ n →
      compute_atr highs lows closes =
        some (((List.range ATR_PERIOD).map fun j =>
            trueRange (highs.getD (n - ATR_PERIOD + j) 0) (lows.getD (n - ATR_PERIOD + j) 0)
              (closes.getD (n - ATR_PERIOD + j - 1) 0)).sum / (ATR_PERIOD : ℚ))) ∧
    (∀ highs lows closes : List ℚ,
      min (min closes.length highs.length) lows.length < ATR_PERIOD + 1 →
      compute_atr highs lows closes = none) ∧
    (∀ (st : SymbolState) (k : Kline),
      ATR_PERIOD + 1 ≤ (st.update k).close_1m.values.length →
      (st.update k).atr =
        compute_atr (st.update k).high_1m.values (st.update k).low_1m.values
          (st.update k).close_1m.values) := by
  refine ⟨?_, ?_, ?_⟩
  · intro highs lows closes n hn h15
    simp only [compute_atr, ← hn]
    rw [if_neg (by omega)]
    simp only [List.length_map, List.length_range]
    rw [if_neg (by simp only [ATR_PERIOD] at h15 ⊢; omega)]
    simp only [Option.some.injEq]
    congr 1
    simp only [ATR_PERIOD] at h15 ⊢
    rw [atr_window _ _ (n - 1) (by omega)]
    intro j hj
    have h1 : n - 1 - 14 + j + 1 = n - 14 + j := by omega
    have h2 : n - 1 - 14 + j = n - 14 + j - 1 := by omega
    rw [h1, h2]
  · intro highs lows closes hlt
    simp only [compute_atr]
    rw [if_pos hlt]
  · intro st k hge
    have hcl : (st.update k).close_1m = st.close_1m.push k.close := by
      simp only [SymbolState.update]
      split_ifs <;> rfl
    have hh : (st.update k).high_1m = st.high_1m.push k.high := by
      simp only [SymbolState.update]
      split_ifs <;> rfl
    have hl : (st.update k).low_1m = st.low_1m.push k.low := by
      simp only [SymbolState.update]
      split_ifs <;> rfl
    rw [hcl] at hge
    rw [hcl, hh, hl]
    simp only [SymbolState.update]
    rw [if_pos hge]

/-- Does the bar reach the stop (adverse extreme) for the given side? -/
def stopHitB (side : String) (stop : ℚ) (c : CandleRow) : Bool :=
  if side = "BUY" then decide (c.low ≤ stop) else decide (c.high ≥ stop)

/-- Does the bar reach the TP level (favorable extreme) for the given side? -/
def tpHitB (side : String) (c : CandleRow) (tp : ℚ) : Bool :=
  if side = "BUY" then decide (c.high ≥ tp) else decide (c.low ≤ tp)

lemma firstTpIdx_none (hit : ℚ → Bool) :
    ∀ l : List ℚ, (∀ tp ∈ l, hit tp = false) → firstTpIdx hit l = none := by
  intro l
  induction l with
  | nil => intro _; rfl
  | cons tp rest ih =>
    intro h
    rw [firstTpIdx, if_neg (by simp [h tp (by simp)]), ih (fun q hq => h q (by simp [hq]))]
    rfl

lemma simulateGo_first_hit (side : String) (entry stop risk : ℚ) (tp_levels : List ℚ) :
    ∀ (candles : List CandleRow) (i i0 : ℕ) (mae mfe : ℚ),
      i < candles.length →
      (∀ kk, kk < i → stopHitB side stop (candles.getD kk default) = false ∧
        ∀ tp ∈ tp_levels, tpHitB side (candles.getD kk default) tp = false) →
      ((stopHitB side stop (candles.getD i default) = true →
        (simulateGo side entry stop risk tp_levels candles i0 mae mfe).resolved = "SL" ∧
        (simulateGo side entry stop risk tp_levels candles i0 mae mfe).r = -1 ∧
        (simulateGo side entry stop risk tp_levels candles i0 mae mfe).bars = i0 + i + 1) ∧
      (stopHitB side stop (candles.getD i default) = false →
        ∀ j, firstTpIdx (fun tp => tpHitB side (candles.getD i default) tp) tp_levels = some j →
        (simulateGo side entry stop risk tp_levels candles i0 mae mfe).resolved = "TP" ++ toString (j + 1) ∧
        (simulateGo side entry stop risk tp_levels candles i0 mae mfe).r = (j : ℚ) + 1 ∧
        (simulateGo side entry stop risk tp_levels candles i0 mae mfe).bars = i0 + i + 1)) := by
  intro candles
  induction candles with
  | nil =>
    intro i i0 mae mfe hi
    simp at hi
  | cons c rest ih =>
    intro i i0 mae mfe hi hbefore
    by_cases hside : side = "BUY"
    · subst hside
      rcases i with _ | i'
      · simp only [List.getD_cons_zero]
        constructor
        · intro hstop
          rw [stopHitB, if_pos rfl, decide_eq_true_iff] at hstop
          simp only [simulateGo, if_pos rfl, if_true, if_pos hstop]
          refine ⟨?_, ?_, ?_⟩ <;> trivial
        · intro hstop j hj
          rw [stopHitB, if_pos rfl] at hstop
          have hstop' : ¬ c.low ≤ stop := by simpa using hstop
          have hj' : firstTpIdx (fun tp => decide (c.high ≥ tp)) tp_levels = some j := by
            have : (fun tp => tpHitB "BUY" c tp) = fun tp => decide (c.high ≥ tp) := by
              funext tp
              rw [tpHitB, if_pos rfl]
            rwa [this] at hj
          simp only [simulateGo, if_pos rfl, if_true, if_neg hstop', hj']
          refine ⟨?_, ?_, ?_⟩ <;> trivial
      · have h0 := hbefore 0 (by omega)
        rw [List.getD_cons_zero] at h0
        have hstop0 : ¬ c.low ≤ stop := by
          have := h0.1
          rw [stopHitB, if_pos rfl] at this
          simpa using this
        have htp0 : firstTpIdx (fun tp => decide (c.high ≥ tp)) tp_levels = none := by
          apply firstTpIdx_none
          intro tp htp
          have := h0.2 tp htp
          rwa [tpHitB, if_pos rfl] at this
        have hstep : simulateGo "BUY" entry stop risk tp_levels (c :: rest) i0 mae mfe =
            simulateGo "BUY" entry stop risk tp_levels rest (i0 + 1)
              (max mae ((entry - c.low) / risk)) (max mfe ((c.high - entry) / risk)) := by
          simp only [simulateGo, if_pos rfl, if_true, if_neg hstop0, htp0]
        rw [hstep]
        have hrest := ih i' (i0 + 1) (max mae ((entry - c.low) / risk))
          (max mfe ((c.high - entry) / risk)) (by simpa using hi)
          (fun kk hkk => by simpa using hbefore (kk + 1) (by omega))
        simp only [List.getD_cons_succ]
        refine ⟨fun hs => ?_, fun hs j hj => ?_⟩
        · obtain ⟨h1, h2, h3⟩ := hrest.1 hs
          exact ⟨h1, h2, by rw [h3]; omega⟩
        · obtain ⟨h1, h2, h3⟩ := hrest.2 hs j hj
          exact ⟨h1, h2, by rw [h3]; omega⟩
    · rcases i with _ | i'
      · simp only [List.getD_cons_zero]
        constructor
        · intro hstop
          rw [stopHitB, if_neg hside, decide_eq_true_iff] at hstop
          simp only [simulateGo, if_neg hside, if_pos hstop]
          refine ⟨?_, ?_, ?_⟩ <;> trivial
        · intro hstop j hj
          rw [stopHitB, if_neg hside] at hstop
          have hstop' : ¬ c.high ≥ stop := by simpa using hstop
          have hj' : firstTpIdx (fun tp => decide (c.low ≤ tp)) tp_levels = some j := by
            have : (fun tp => tpHitB side c tp) = fun tp => decide (c.low ≤ tp) := by
              funext tp
              rw [tpHitB, if_neg hside]
            rwa [this] at hj
          simp only [simulateGo, if_neg hside, if_neg hstop', hj']
          refine ⟨?_, ?_, ?_⟩ <;> trivial
      · have h0 := hbefore 0 (by omega)
        rw [List.getD_cons_zero] at h0
        have hstop0 : ¬ c.high ≥ stop := by
          have := h0.1
          rw [stopHitB, if_neg hside] at this
          simpa using this
        have htp0 : firstTpIdx (fun tp => decide (c.low ≤ tp)) tp_levels = none := by
          apply firstTpIdx_none
          intro tp htp
          have := h0.2 tp htp
          rwa [tpHitB, if_neg hside] at this
        have hstep : simulateGo side entry stop risk tp_levels (c :: rest) i0 mae mfe =
            simulateGo side entry stop risk tp_levels rest (i0 + 1)
              (max mae ((c.high - entry) / risk)) (max mfe ((entry - c.low) / risk)) := by
          simp only [simulateGo, if_neg hside, if_neg hstop0, htp0]
        rw [hstep]
        have hrest := ih i' (i0 + 1) (max mae ((c.high - entry) / risk))
          (max mfe ((entry - c.low) / risk)) (by simpa using hi)
          (fun kk hkk => by simpa using hbefore (kk + 1) (by omega))
        simp only [List.getD_cons_succ]
        refine ⟨fun hs => ?_, fun hs j hj => ?_⟩
        · obtain ⟨h1, h2, h3⟩ := hrest.1 hs
          exact ⟨h1, h2, by rw [h3]; omega⟩
        · obtain ⟨h1, h2, h3⟩ := hrest.2 hs j hj
          exact ⟨h1, h2, by rw [h3]; omega⟩

/-- C3: under `|entry − stop| > 0`, if bar `i` is the first bar of the
forward candles that reaches the stop or a take profit, then: when the
stop is reached the trade resolves `SL` with `R = −1` on that bar even if
the bar also reaches take profits; otherwise it resolves at the first TP
index `j` (in ascending order) reached by the favorable extreme, as
`TP(j+1)` with `R = j+1`.  The side string selects the BUY or the
mirrored SELL comparisons. -/
theorem simulate_one_stop_first (side : String) (entry stop : ℚ) (tps : List (Option ℚ))
    (candles : List CandleRow) (i : ℕ)
    (hrisk : 0 < |entry - stop|) (hi : i < candles.length)
    (hbefore : ∀ kk, kk < i →
      stopHitB side stop (candles.getD kk default) = false ∧
      ∀ tp ∈ tps.filterMap id, tpHitB side (candles.getD kk default) tp = false) :
    (stopHitB side stop (candles.getD i default) = true →
      (simulate_one side entry stop tps candles).resolved = "SL" ∧
      (simulate_one side entry stop tps candles).r = -1 ∧
      (simulate_one side entry stop tps candles).bars = i + 1) ∧
    (stopHitB side stop (candles.getD i default) = false →
      ∀ j, firstTpIdx (fun tp => tpHitB side (candles.getD i default) tp) (tps.filterMap id) = some j →
      (simulate_one side entry stop tps candles).resolved = "TP" ++ toString (j + 1) ∧
      (simulate_one side entry stop tps candles).r = (j : ℚ) + 1 ∧
      (simulate_one side entry stop tps candles).bars = i + 1) := by
  have hone : simulate_one side entry stop tps candles =
      simulateGo side entry stop (|entry - stop|) (tps.filterMap id) candles 0 0 0 := by
    rw [simulate_one, if_neg (by simpa using hrisk)]
  rw [hone]
  have h := simulateGo_first_hit side entry stop (|entry - stop|) (tps.filterMap id)
    candles i 0 0 0 hi hbefore
  refine ⟨fun hs => ?_, fun hs j hj => ?_⟩
  · obtain ⟨h1, h2, h3⟩ := h.1 hs
    exact ⟨h1, h2, by rw [h3]; omega⟩
  · obtain ⟨h1, h2, h3⟩ := h.2 hs j hj
    exact ⟨h1, h2, by rw [h3]; omega⟩

lemma simulateGo_bars_le (side : String) (entry stop risk : ℚ) (tp_levels : List ℚ) :
    ∀ (candles : List CandleRow) (i0 : ℕ) (mae mfe : ℚ),
      (simulateGo side entry stop risk tp_levels candles i0 mae mfe).bars ≤ i0 + candles.length := by
  intro candles
  induction candles with
  | nil => intro i0 mae mfe; simp [simulateGo]
  | cons c rest ih =>
    intro i0 mae mfe
    by_cases hside : side = "BUY"
    · subst hside
      simp only [simulateGo, if_pos rfl, if_true]
      split_ifs with h1
      · simp
      · cases hfi : firstTpIdx (fun tp => decide (c.high ≥ tp)) tp_levels with
        | none =>
          simp only [hfi]
          have := ih (i0 + 1) (max mae ((entry - c.low) / risk)) (max mfe ((c.high - entry) / risk))
          simp only [List.length_cons]
          omega
        | some j => simp [hfi]
    · simp only [simulateGo, if_neg hside]
      split_ifs with h1
      · simp
      · cases hfi : firstTpIdx (fun tp => decide (c.low ≤ tp)) tp_levels with
        | none =>
          simp only [hfi]
          have := ih (i0 + 1) (max mae ((c.high - entry) / risk)) (max mfe ((entry - c.low) / risk))
          simp only [List.length_cons]
          omega
        | some j => simp [hfi]

lemma simulateGo_none (side : String) (entry stop risk : ℚ) (tp_levels : List ℚ) :
    ∀ (candles : List CandleRow) (i0 : ℕ) (mae mfe : ℚ),
      (∀ c ∈ candles, stopHitB side stop c = false ∧
        ∀ tp ∈ tp_levels, tpHitB side c tp = false) →
      (simulateGo side entry stop risk tp_levels candles i0 mae mfe).resolved = "NONE" := by
  intro candles
  induction candles with
  | nil => intro i0 mae mfe _; rfl
  | cons c rest ih =>
    intro i0 mae mfe hno
    have h0 := hno c (by simp)
    by_cases hside : side = "BUY"
    · subst hside
      have hstop0 : ¬ c.low ≤ stop := by
        have := h0.1
        rw [stopHitB, if_pos rfl] at this
        simpa using this
      have htp0 : firstTpIdx (fun tp => decide (c.high ≥ tp)) tp_levels = none := by
        apply firstTpIdx_none
        intro tp htp
        have := h0.2 tp htp
        rwa [tpHitB, if_pos rfl] at this
      simp only [simulateGo, if_pos rfl, if_true, if_neg hstop0, htp0]
      exact ih (i0 + 1) _ _ (fun c2 hc2 => hno c2 (by simp [hc2]))
    · have hstop0 : ¬ c.high ≥ stop := by
        have := h0.1
        rw [stopHitB, if_neg hside] at this
        simpa using this
      have htp0 : firstTpIdx (fun tp => decide (c.low ≤ tp)) tp_levels = none := by
        apply firstTpIdx_none
        intro tp htp
        have := h0.2 tp htp
        rwa [tpHitB, if_neg hside] at this
      simp only [simulateGo, if_neg hside, if_neg hstop0, htp0]
      exact ih (i0 + 1) _ _ (fun c2 hc2 => hno c2 (by simp [hc2]))

/-- C6: the analysis backtester loads at most `HORIZON_15M_BARS = 96`
forward 15m candles, all with `open_time ≥ created_ts`; every simulated
trade resolves within that horizon (`bars ≤ 96`), and resolves `NONE`
when neither the stop nor any take profit is reached on the loaded
candles. -/
theorem analysis_backtest_horizon (rows : List CandleRow) (created_ts : ℤ) (sig : String)
    (entry stop : ℚ) (tp1 tp2 tp3 : Option ℚ) :
    (get_after rows created_ts HORIZON_15M_BARS).length ≤ 96 ∧
    (∀ c ∈ get_after rows created_ts HORIZON_15M_BARS, created_ts ≤ c.open_time) ∧
    (analysis_simulate rows created_ts sig entry stop tp1 tp2 tp3).bars ≤ 96 ∧
    ((∀ c ∈ get_after rows created_ts HORIZON_15M_BARS,
        stopHitB sig stop c = false ∧
        ∀ tp ∈ [tp1, tp2, tp3].filterMap id, tpHitB sig c tp = false) →
      (analysis_simulate rows created_ts sig entry stop tp1 tp2 tp3).resolved = "NONE") := by
  have hlen : (get_after rows created_ts HORIZON_15M_BARS).length ≤ 96 := by
    rw [get_after, HORIZON_15M_BARS]
    simp [List.length_take]
  refine ⟨hlen, ?_, ?_, ?_⟩
  · intro c hc
    rw [get_after] at hc
    have hmem := List.mem_of_mem_take hc
    have := List.of_mem_filter hmem
    simpa using this
  · rw [analysis_simulate]
    split_ifs with hemp
    · simp
    · rw [simulate_one]
      split_ifs with hr
      · simp
      · calc (simulateGo sig entry stop (|entry - stop|) ([tp1, tp2, tp3].filterMap id)
            (get_after rows created_ts HORIZON_15M_BARS) 0 0 0).bars
            ≤ 0 + (get_after rows created_ts HORIZON_15M_BARS).length :=
              simulateGo_bars_le sig entry stop _ _ _ 0 0 0
          _ ≤ 96 := by omega
  · intro hno
    rw [analysis_simulate]
    split_ifs with hemp
    · rfl
    · rw [simulate_one]
      split_ifs with hr
      · rfl
      · exact simulateGo_none sig entry stop _ _ _ 0 0 0 hno

/-! ### Concrete instantiations of the properties above -/

/-- Metrics reaching score 8 on a BUY signal while failing the MTF
alignment check (1h and 4h RSI in the overbought extreme, MACD data
missing): strong OI increase, high RVOL, mild momentum, oversold 15m
RSI. -/
def sampleGraderMetrics : GraderMetrics :=
  { rsi_1h := some 75, rsi_4h := some 80, macd_histogram_1h := none
    macd_histogram_4h := none, oi_change_5m := some 1, rvol_1m := some 2
    momentum_score := some 10, vol_1m := none, rsi_14 := some 20
    funding_rate := none, volatility_percentile := none, symbol_win_rate := none
    mtf_bull_count := 0, mtf_bear_count := 0, bb_position := none
    bb_width := none, atr := none, last_price := none, vwap_15m := none }

/-- Witness for C4 at a concrete input: `sampleGraderMetrics` scores 8 on
BUY with MTF alignment failing, and is graded `B`. -/
theorem grade_alert_spec_witness : (grade_alert sampleGraderMetrics "BUY").2 = "B" :=
  (grade_alert_spec sampleGraderMetrics "BUY").2.2.2
    (by norm_num [grade_alert, grade_score, check_mtf_alignment, sampleGraderMetrics])
    (by norm_num [check_mtf_alignment, sampleGraderMetrics])

/-- Witness for C1 at concrete inputs: BUY at 100 with ATR 2, swing high
103 and swing low 97 yields a plan with the stop at or below the entry and
`risk_per_unit = |entry − stop|`; and even at the counterexample input
(swing low 110 above the entry) the risk identity still holds. -/
theorem build_trade_plan_invariants_witness :
    (∃ plan, build_trade_plan "BUY" 100 (some 2) (some 103) (some 97) = some plan ∧
      plan.stop_loss ≤ plan.entry_price ∧
      plan.risk_per_unit = some |plan.entry_price - plan.stop_loss|) ∧
    (∃ plan, build_trade_plan "BUY" 100 none none (some 110) = some plan ∧
      plan.risk_per_unit = some |plan.entry_price - plan.stop_loss|) := by
  constructor
  · have h := (build_trade_plan_invariants 100 (some 2) (some 103) (some 97)).2.1
      _ rfl
      (by intro a ha; rw [Option.mem_def, Option.some.injEq] at ha; subst ha; norm_num)
      (by intro s hs; rw [Option.mem_def, Option.some.injEq] at hs; subst hs; norm_num)
    exact ⟨_, rfl, h.1, h.2.2.2.2⟩
  · exact ⟨_, rfl, (build_trade_plan_invariants 100 none none (some 110)).1 "BUY" _ rfl⟩

/-- Witness for C3 at a concrete input: BUY at 100 with stop 95 and TPs
105/110; the first bar hits nothing, the second bar crosses both the stop
and both TPs, and the trade resolves `SL` with `R = −1` on bar 2. -/
theorem simulate_one_stop_first_witness :
    (simulate_one "BUY" 100 95 [some 105, some 110, none]
      [⟨0, 0, 98, 99, 96, 98, 1⟩, ⟨0, 0, 98, 111, 94, 98, 1⟩]).resolved = "SL" ∧
    (simulate_one "BUY" 100 95 [some 105, some 110, none]
      [⟨0, 0, 98, 99, 96, 98, 1⟩, ⟨0, 0, 98, 111, 94, 98, 1⟩]).r = -1 ∧
    (simulate_one "BUY" 100 95 [some 105, some 110, none]
      [⟨0, 0, 98, 99, 96, 98, 1⟩, ⟨0, 0, 98, 111, 94, 98, 1⟩]).bars = 1 + 1 :=
  (simulate_one_stop_first "BUY" 100 95 [some 105, some 110, none]
    [⟨0, 0, 98, 99, 96, 98, 1⟩, ⟨0, 0, 98, 111, 94, 98, 1⟩] 1
    (by norm_num) (by norm_num)
    (by
      intro kk hkk
      have hz : kk = 0 := by omega
      subst hz
      exact ⟨by decide, by decide⟩)).1 (by decide)

/-- Witness for C5 at a concrete input: upserting the same candle twice
into the empty table equals upserting it once, and a second upsert at the
same key leaves exactly the newer row. -/
theorem upsert_candle_spec_witness :
    upsert_candle (upsert_candle []
        ⟨"binance", "BTCUSDT", "15m", 0⟩ ⟨1, 1, 2, 1, 2, 3⟩)
        ⟨"binance", "BTCUSDT", "15m", 0⟩ ⟨1, 1, 2, 1, 2, 3⟩ =
      upsert_candle [] ⟨"binance", "BTCUSDT", "15m", 0⟩ ⟨1, 1, 2, 1, 2, 3⟩ ∧
    (upsert_candle (upsert_candle []
        ⟨"binance", "BTCUSDT", "15m", 0⟩ ⟨1, 1, 2, 1, 2, 3⟩)
        ⟨"binance", "BTCUSDT", "15m", 0⟩ ⟨2, 4, 5, 4, 5, 6⟩).filter
      (fun r => decide (r.1 = ⟨"binance", "BTCUSDT", "15m", 0⟩)) =
      [(⟨"binance", "BTCUSDT", "15m", 0⟩, ⟨2, 4, 5, 4, 5, 6⟩)] :=
  ⟨(upsert_candle_spec [] ⟨"binance", "BTCUSDT", "15m", 0⟩ ⟨1, 1, 2, 1, 2, 3⟩ ⟨2, 4, 5, 4, 5, 6⟩).1,
   ((upsert_candle_spec [] ⟨"binance", "BTCUSDT", "15m", 0⟩ ⟨1, 1, 2, 1, 2, 3⟩ ⟨2, 4, 5, 4, 5, 6⟩).2
     List.Pairwise.nil).2⟩

/-- Witness for C6 at a concrete input: one stored candle after the alert
timestamp that hits neither stop nor any TP; the horizon bound holds and
the trade resolves `NONE`. -/
theorem analysis_backtest_horizon_witness :
    (get_after [⟨0, 0, 1, 1, 1, 1, 0⟩] 0 HORIZON_15M_BARS).length ≤ 96 ∧
    (analysis_simulate [⟨0, 0, 1, 1, 1, 1, 0⟩] 0 "BUY" 1 0 none none none).resolved = "NONE" :=
  ⟨(analysis_backtest_horizon [⟨0, 0, 1, 1, 1, 1, 0⟩] 0 "BUY" 1 0 none none none).1,
   (analysis_backtest_horizon [⟨0, 0, 1, 1, 1, 1, 0⟩] 0 "BUY" 1 0 none none none).2.2.2
     (by decide)⟩

/-- Witness for C7 at a concrete input: 15 bars with constant high 10,
low 8, close 9 give ATR 2; 14 bars give `none`. -/
theorem compute_atr_correct_witness :
    compute_atr (List.replicate 15 10) (List.replicate 15 8) (List.replicate 15 9) = some 2 ∧
    compute_atr (List.replicate 14 10) (List.replicate 14 8) (List.replicate 14 9) = none :=
  ⟨(compute_atr_correct.1 (List.replicate 15 10) (List.replicate 15 8) (List.replicate 15 9)
      15 (by decide) (by decide)).trans
      (by norm_num [ATR_PERIOD, trueRange, List.range_succ, List.replicate_succ]),
   compute_atr_correct.2.1 _ _ _ (by decide)⟩

/-- Witness for C8 at a concrete input: from a fresh state at time 0 with
the default 30000 ms throttle, an emit attempt at 30000 fires, one at
29999 leaves the state unchanged, and after the emit at 30000 a second
emit at 60000 respects the separation bound. -/
theorem emit_if_due_spec_witness :
    ((AggregatorState.init 0).emit_if_due 30000 "snap").2 = true ∧
    ((AggregatorState.init 0).emit_if_due 29999 "snap").1 = AggregatorState.init 0 ∧
    (30000 : ℤ) ≤ 60000 - 30000 :=
  ⟨(emit_if_due_spec (AggregatorState.init 0) 30000 "snap").1.mpr (by decide),
   (emit_if_due_spec (AggregatorState.init 0) 29999 "snap").2.1 (by decide),
   (emit_if_due_spec (AggregatorState.init 0) 30000 "snap").2.2.1 (by decide) 60000 "snap2"
     (by decide)⟩

/-- Witness for C9 at a concrete input: a subscriber queue holding one
element receives the payload on emit, stays within capacity and holds the
payload as its most recent element. -/
theorem subscriber_queue_spec_witness :
    (["a", "p"] : List String).length ≤ SUBSCRIBER_QUEUE_MAXSIZE ∧
    "p" ∈ (["a", "p"] : List String) ∧
    (["a", "p"] : List String).getLast? = some "p" :=
  (subscriber_queue_spec
      { last_emit_ts := 0, throttle_ms := 30000, subscribers := [["a"]] } 5 "p"
      (by decide)).2.2 ["a", "p"] (by decide)

/-- Witness for C10 at a concrete input where the buy flag fires: the two
flags are not both true. -/
theorem cipher_b_signals_exclusive_witness :
    ¬((cipher_b_signals (some 1) (some (-41)) (some 0) (some 1) (-40) 40).1 = some true ∧
      (cipher_b_signals (some 1) (some (-41)) (some 0) (some 1) (-40) 40).2 = some true) :=
  cipher_b_signals_exclusive (some 1) (some (-41)) (some 0) (some 1) (-40) 40
